import Mathlib

/-!
Verification development for the surrealdb-better-auth adapter.

The repository contains two adapter variants:
 - the legacy adapter (src/index.ts): createTransform with getField,
   transformInput, transformOutput, convertWhereClause, plus the
   closure-based ensureConnection single-flight connection manager;
 - the factory adapter (the unnamed source file built on
   createAdapterFactory): buildWhereClause, serializeValue,
   isRecordIdField, isRecordIdString, transformValueForDB and the
   operation executors;
 - shared helpers (src/utils.ts): withApplyDefault, shouldConvertToRecordId,
   isDateString.

JavaScript values that flow through the adapter are embedded as the
inductive type JsValue.  Machinery from external libraries (the surrealdb
client and better-auth) is modelled where the adapter calls into it; each
such definition carries a doc comment naming what it models.
-/

namespace SurrealAdapter

/-- Embedded JavaScript values as handled by the adapter: strings, numbers,
booleans, null and undefined, Date objects (identified by their ISO
rendering), and the surrealdb record-id wrapper objects.  A thrown library
exception is reified as a value so that partial library constructors stay
total.  Array values (used only by the in operator) are not modelled; no
verified claim depends on them. -/
inductive JsValue where
  | undefined : JsValue
  | null : JsValue
  | bool (b : Bool) : JsValue
  | num (n : Int) : JsValue
  | str (s : String) : JsValue
  | date (iso : String) : JsValue
  | recordId (rid : String) : JsValue
  | thrown (msg : String) : JsValue
deriving DecidableEq

/-- JavaScript truthiness of an embedded value. -/
def JsValue.truthy : JsValue → Bool
  | .undefined => false
  | .null => false
  | .bool b => b
  | .num n => n != 0
  | .str s => s != ""
  | .date _ => true
  | .recordId _ => true
  | .thrown _ => true

/-- The test `value === undefined || value === null` used by the codec and
the predicate compilers. -/
def JsValue.isNullish : JsValue → Bool
  | .undefined => true
  | .null => true
  | _ => false

/-- Whether a value is a native typed identifier (a record-id wrapper). -/
def JsValue.isRid : JsValue → Bool
  | .recordId _ => true
  | _ => false

/-- A schema default value: either a literal or a zero-argument generator
function (identified by the value it produces when invoked). -/
inductive DefaultValue where
  | lit (v : JsValue) : DefaultValue
  | gen (v : JsValue) : DefaultValue
deriving DecidableEq

/-- JavaScript truthiness of the raw defaultValue slot: a function is always
truthy, a literal is truthy per its value. -/
def DefaultValue.truthy : DefaultValue → Bool
  | .lit v => v.truthy
  | .gen _ => true

/-- Materializing a default: invoke the generator if it is a zero-argument
function, else use the literal (source: typeof field.defaultValue ===
"function" ? field.defaultValue() : field.defaultValue). -/
def DefaultValue.materialize : DefaultValue → JsValue
  | .lit v => v
  | .gen v => v

/-- Field metadata as consumed by the adapter (better-auth FieldAttribute):
optional storage name, optional default, optional reference (we record the
referenced model name; the test used by the code is
field.references?.model !== undefined). -/
structure FieldAttribute where
  fieldName : Option String := none
  defaultValue : Option DefaultValue := none
  references : Option String := none

/-- One table of the schema: its field definitions in declaration order. -/
structure TableSchema where
  fields : List (String × FieldAttribute)

/-- The schema supplied at adapter construction: model name to table. -/
def Schema := List (String × TableSchema)

/-- The lookup schema[model] (undefined when the model is absent). -/
def lookupTable (schema : Schema) (model : String) : Option TableSchema :=
  (schema.find? (fun p => p.1 == model)).map (fun p => p.2)

/-- The lookup schema[model]?.fields[field]. -/
def lookupField (schema : Schema) (model field : String) : Option FieldAttribute :=
  (lookupTable schema model).bind
    (fun t => (t.fields.find? (fun p => p.1 == field)).map (fun p => p.2))

/-- The storage name of a field: fieldValue.fieldName || field (JavaScript
falsiness: an absent or empty fieldName falls back to the logical name). -/
def storageName (field : String) (attr : FieldAttribute) : String :=
  match attr.fieldName with
  | some n => if n == "" then field else n
  | none => field

/-- Models the JavaScript test `!isNaN(new Date(s).getTime())` from
src/utils.ts.  JavaScript date parsing is host-defined; it is modelled here
as recognising ISO-8601 date prefixes (YYYY-MM-DD...).  No theorem below
depends on the exact extent of this predicate beyond concrete evaluation. -/
def isDateString (s : String) : Bool :=
  match s.toList with
  | y1 :: y2 :: y3 :: y4 :: '-' :: m1 :: m2 :: '-' :: d1 :: d2 :: _ =>
      [y1, y2, y3, y4, m1, m2, d1, d2].all Char.isDigit
  | _ => false

/-- The JavaScript s.endsWith(post) test, modelled on character lists (the
byte-position implementation of the core library does not evaluate inside
the kernel). -/
def strEndsWith (s post : String) : Bool := post.toList.isSuffixOf s.toList

/-- The JavaScript s.startsWith(p) test, modelled on character lists. -/
def strStartsWith (s p : String) : Bool := p.toList.isPrefixOf s.toList

/-- The JavaScript s.includes(c) test for a single character, modelled on
character lists. -/
def strContainsChar (s : String) (c : Char) : Bool := s.toList.contains c

/-- src/utils.ts shouldConvertToRecordId: a field is identifier-bearing if
its name ends in "Id", is not in the exclusion list, and is not the
accountId field on the account model. -/
def shouldConvertToRecordId (fieldName : Option String) (model : Option String) : Bool :=
  match fieldName with
  | none => false
  | some n =>
    if !(strEndsWith n "Id") then false
    else if n = "providerId" ∨ n = "activeOrganizationId" then false
    else if n = "accountId" ∧ model = some "account" then false
    else true

/-- Models the surrealdb library constructor `new StringRecordId(value)`:
it unwraps a value that is already a record id, wraps a plain string, and
throws SurrealDbError for any other input (the thrown exception is reified
as a value). -/
def mkStringRecordId : JsValue → JsValue
  | .recordId r => .recordId r
  | .str s => .recordId s
  | _ => .thrown "String Record ID must be a string"

/-- The action under which a payload is encoded. -/
inductive Action where
  | create : Action
  | update : Action
deriving DecidableEq

/-- src/utils.ts withApplyDefault, the encode half of the value codec.
Rules in source order (switch (true), first match wins): update actions
pass the value through; nullish values materialize a truthy default;
reference fields and name-convention identifier fields are wrapped as
record ids; date-like strings become Date objects; everything else passes
through. -/
def withApplyDefault (value : JsValue) (field : FieldAttribute)
    (action : Action) (model : Option String) : JsValue :=
  match action with
  | .update => value
  | .create =>
    if value.isNullish then
      match field.defaultValue with
      | some d => if d.truthy then d.materialize else value
      | none => value
    else if field.references.isSome then
      mkStringRecordId value
    else if shouldConvertToRecordId field.fieldName model then
      mkStringRecordId value
    else
      match value with
      | .str s => if isDateString s then .date s else .str s
      | v => v

/-- The legacy adapter field resolver (src/index.ts getField): the literal
identifier field id is returned unchanged; otherwise the schema is
consulted and f?.fieldName || field is returned (a silent fallback to the
input name when the model, the field or the storage name is missing). -/
def getField (schema : Schema) (model field : String) : String :=
  if field = "id" then field
  else
    match lookupField schema model field with
    | some f => storageName field f
    | none => field

/-- Abstract filter operators (better-auth Where operators). -/
inductive Operator where
  | eq | ne | lt | lte | gt | gte | inOp | contains | starts_with | ends_with
deriving DecidableEq

/-- Logical connector carried by a condition (better-auth Where). -/
inductive Connector where
  | AND | OR
deriving DecidableEq

/-- One abstract filter condition (better-auth Where): field, value, an
optional operator and an optional connector to the next condition. -/
structure WhereClause where
  field : String
  value : JsValue
  operator : Option Operator := none
  connector : Option Connector := none
deriving DecidableEq

/-- A single-quote character as a string, kept out of string literals. -/
def singleQuote : String := String.singleton (Char.ofNat 39)

/-- Models the template interpolation of jsonify(value) from the surrealdb
library as used by the legacy predicate compiler: record ids and Date
values render to their plain string form, strings stay themselves (the
template interpolation does not quote them), numbers and booleans render
decimally. -/
def jsonifyStr : JsValue → String
  | .undefined => "undefined"
  | .null => "null"
  | .bool b => if b then "true" else "false"
  | .num n => toString n
  | .str s => s
  | .date iso => iso
  | .recordId r => r
  | .thrown m => m

/-- One condition of the legacy predicate compiler (the body of the map in
src/index.ts convertWhereClause): resolve the storage field, emit the
is-unset test for nullish values regardless of operator, then switch on the
operator; the value is interpolated raw in starts_with and ends_with and
via jsonify elsewhere (these coincide on the modelled string values). -/
def convertClause (schema : Schema) (model : String) (clause : WhereClause) : String :=
  let field := getField schema model clause.field
  if clause.value.isNullish then field ++ " = NONE"
  else
    let isRecordId := clause.value.isRid
    match clause.operator with
    | some .eq =>
        if field = "id" ∨ isRecordId then field ++ " = " ++ jsonifyStr clause.value
        else field ++ " = " ++ singleQuote ++ jsonifyStr clause.value ++ singleQuote
    | some .inOp => field ++ " IN [" ++ jsonifyStr clause.value ++ "]"
    | some .contains =>
        field ++ " CONTAINS " ++ singleQuote ++ jsonifyStr clause.value ++ singleQuote
    | some .starts_with =>
        "string::starts_with(" ++ field ++ "," ++ singleQuote ++ jsonifyStr clause.value
          ++ singleQuote ++ ")"
    | some .ends_with =>
        "string::ends_with(" ++ field ++ "," ++ singleQuote ++ jsonifyStr clause.value
          ++ singleQuote ++ ")"
    | _ =>
        if strEndsWith field "Id" ∨ isRecordId ∨ field = "id" then
          field ++ " = " ++ jsonifyStr clause.value
        else field ++ " = " ++ singleQuote ++ jsonifyStr clause.value ++ singleQuote

/-- The legacy predicate compiler (src/index.ts convertWhereClause): map
each condition and join the fragments with the AND token. -/
def convertWhereClause (schema : Schema) (whereList : List WhereClause)
    (model : String) : String :=
  String.intercalate " AND " (whereList.map (convertClause schema model))

/-- The factory adapter check for a record-id shaped string, modelling the
regular expression used by isRecordIdString: a table part starting with a
letter or underscore followed by alphanumerics or underscores, one colon,
and a non-empty id part of alphanumerics, underscores, dashes or angle
quotes. -/
def isRecordIdString (s : String) : Bool :=
  match s.splitOn ":" with
  | [tb, idPart] =>
    (match tb.toList with
     | c :: rest =>
        (c.isAlpha ∨ c = '_') && rest.all (fun ch => ch.isAlphanum ∨ ch = '_')
     | [] => false)
    && !idPart.toList.isEmpty
    && idPart.toList.all (fun ch => ch.isAlphanum ∨ ch = '_' ∨ ch = '-' ∨ ch = '⟨' ∨ ch = '⟩')
  | _ => false

/-- The factory adapter list of fields whose string values hold record ids
(isRecordIdField): the id field, the core and plugin foreign keys; the
accountId and providerId OAuth identifiers are not record ids. -/
def isRecordIdField (field : String) : Bool :=
  if field = "id" then true
  else if field = "userId" ∨ field = "sessionId" then true
  else if field = "organizationId" ∨ field = "teamId" ∨ field = "inviterId"
          ∨ field = "invitationId" then true
  else if field = "memberId" then true
  else false

/-- Models JSON.stringify on an embedded string value: double-quote
wrapping (escaping is omitted; the modelled strings contain no characters
that JSON.stringify would escape). -/
def jsStringify (s : String) : String := "\"" ++ s ++ "\""

/-- The factory adapter serializeValue: renders a value into SurrealQL
source text.  Record-id shaped strings in record-id fields stay unquoted,
other strings are JSON-quoted, numbers and booleans render as-is, dates
render as d-quoted ISO strings, record-id wrapper objects render via
jsonify.  Arrays are not modelled (no verified claim serializes one); the
reified thrown-exception value never reaches serialization and renders as
an empty JSON object. -/
def serializeValue (value : JsValue) (field : Option String) : String :=
  match value with
  | .undefined => "NONE"
  | .null => "NONE"
  | .str s =>
    match field with
    | some f => if isRecordIdField f && isRecordIdString s then s else jsStringify s
    | none => jsStringify s
  | .num n => toString n
  | .bool b => if b then "true" else "false"
  | .date iso => "d\"" ++ iso ++ "\""
  | .recordId r => r
  | .thrown _ => "\x7b\x7d"

/-- One condition of the factory predicate compiler (the body of the map in
buildWhereClause): the operator defaults to eq, nullish values compile to
the is-unset test regardless of operator, and every operator token comes
from the fixed table (the source default branch for unknown operator
strings also emits equality; the operator type here is closed so it is
unreachable). -/
def buildClause (clause : WhereClause) : String :=
  let field := clause.field
  let value := clause.value
  let operator := clause.operator.getD .eq
  if value.isNullish then field ++ " = NONE"
  else
    match operator with
    | .eq => field ++ " = " ++ serializeValue value (some field)
    | .ne => field ++ " != " ++ serializeValue value (some field)
    | .gt => field ++ " > " ++ serializeValue value (some field)
    | .gte => field ++ " >= " ++ serializeValue value (some field)
    | .lt => field ++ " < " ++ serializeValue value (some field)
    | .lte => field ++ " <= " ++ serializeValue value (some field)
    | .inOp => field ++ " IN " ++ serializeValue value (some field)
    | .contains => field ++ " CONTAINS " ++ serializeValue value (some field)
    | .starts_with =>
        "string::starts_with(" ++ field ++ ", " ++ serializeValue value (some field) ++ ")"
    | .ends_with =>
        "string::ends_with(" ++ field ++ ", " ++ serializeValue value (some field) ++ ")"

/-- The factory predicate compiler (buildWhereClause): an empty or absent
filter list compiles to the empty predicate, otherwise the fragments are
joined with the AND token. -/
def buildWhereClause (whereList : List WhereClause) : String :=
  if whereList.isEmpty then ""
  else String.intercalate " AND " (whereList.map buildClause)

/-- Sort specification passed to findMany. -/
structure SortBy where
  field : String
  direction : String

/-- The native query emitted by the legacy findMany (src/index.ts): the
WHERE clause is appended whenever a filter list is present, even an empty
one; then ordering, limit and offset in that fixed order. -/
def findManyQueryLegacy (schema : Schema) (model : String)
    (whereList : Option (List WhereClause)) (sortBy : Option SortBy)
    (limit offset : Option Nat) : String :=
  let q := "SELECT * FROM " ++ model
  let q := match whereList with
    | some w => q ++ " WHERE " ++ convertWhereClause schema w model
    | none => q
  let q := match sortBy with
    | some sb => q ++ " ORDER BY " ++ getField schema model sb.field ++ " " ++ sb.direction
    | none => q
  let q := match limit with
    | some l => q ++ " LIMIT " ++ toString l
    | none => q
  match offset with
  | some o => q ++ " START " ++ toString o
  | none => q

/-- The native query emitted by the factory findMany: the WHERE clause is
appended only when the filter list is present and non-empty; the sort
direction is upper-cased. -/
def findManyQueryFactory (model : String) (whereList : Option (List WhereClause))
    (sortBy : Option SortBy) (limit offset : Option Nat) : String :=
  let q := "SELECT * FROM " ++ model
  let q := match whereList with
    | some w => if w.length > 0 then q ++ " WHERE " ++ buildWhereClause w else q
    | none => q
  let q := match sortBy with
    | some sb => q ++ " ORDER BY " ++ sb.field ++ " " ++ sb.direction.toUpper
    | none => q
  let q := match limit with
    | some l => q ++ " LIMIT " ++ toString l
    | none => q
  match offset with
  | some o => q ++ " START " ++ toString o
  | none => q

/-- The aggregate query emitted by the legacy count (src/index.ts): the
compiled predicate is used only when it is a non-empty string. -/
def countQueryLegacy (schema : Schema) (model : String)
    (whereList : Option (List WhereClause)) : String :=
  let whereClause := match whereList with
    | some w => convertWhereClause schema w model
    | none => ""
  if whereClause != "" then
    "SELECT count() FROM " ++ model ++ " WHERE " ++ whereClause ++ " GROUP ALL"
  else
    "SELECT count() FROM " ++ model ++ " GROUP ALL"

/-- The aggregate query emitted by the factory count: the WHERE clause is
used only when the filter list is present and non-empty. -/
def countQueryFactory (model : String) (whereList : Option (List WhereClause)) : String :=
  match whereList with
  | some w =>
    if w.length > 0 then
      "SELECT count() FROM " ++ model ++ " WHERE " ++ buildWhereClause w ++ " GROUP ALL"
    else "SELECT count() FROM " ++ model ++ " GROUP ALL"
  | none => "SELECT count() FROM " ++ model ++ " GROUP ALL"

/-- One row of the aggregate count result (both count executors read only
the count field of the first row). -/
structure CountRow where
  count : Nat
deriving DecidableEq

/-- The legacy count result handling (src/index.ts count): the first row of
the aggregate result is required; when it is absent a SurrealDBQueryError
is thrown, otherwise Number(res.count) is returned. -/
def countResultLegacy (rows : List CountRow) : Except String Nat :=
  match rows.head? with
  | none => .error "Failed to count records"
  | some r => .ok r.count

/-- The factory count result handling: results?.[0]?.count || 0, so an
absent aggregate row (or a zero count) yields 0. -/
def countResultFactory (rows : List CountRow) : Nat :=
  match rows.head? with
  | none => 0
  | some r => r.count

/-- The factory adapter transformValueForDB: nullish values pass through;
string values of fields ending in Id (except provider- and account-
prefixed fields) are wrapped as record ids, prefixing the referenced model
name when the string does not already carry a table part; everything else
passes through. -/
def transformValueForDB (field : String) (value : JsValue) : JsValue :=
  if value.isNullish then value
  else
    match value with
    | .str s =>
      if strEndsWith field "Id" && !(strStartsWith field "provider")
          && !(strStartsWith field "account") then
        let refModel := field.dropRight 2
        if !(strContainsChar s ':') then .recordId (refModel ++ ":" ++ s)
        else .recordId s
      else .str s
    | v => v

/-- Modelled from the better-auth library: generateId() returns a fresh
random non-empty identifier.  Randomness is not modelled; the generator is
represented by a fixed non-empty token. -/
def generatedIdToken : String := "generated-id"

/-- The property read data[k] on an embedded record (an association list in
JavaScript object insertion order): an absent key reads as undefined. -/
def lookupData (data : List (String × JsValue)) (k : String) : JsValue :=
  match data.find? (fun p => p.1 == k) with
  | some p => p.2
  | none => .undefined

/-- The property write transformedData[k] = v on an embedded record:
reassignment keeps the original key position, a new key is appended. -/
def insertField (acc : List (String × JsValue)) (k : String) (v : JsValue) :
    List (String × JsValue) :=
  if acc.any (fun p => p.1 == k) then
    acc.map (fun p => if p.1 == k then (k, v) else p)
  else acc ++ [(k, v)]

/-- The id slot of a freshly created record (src/index.ts transformInput,
create branch): options.advanced?.generateId ? generateId({model}) :
data.id || generateId().  The configured generator is modelled as a
function from the model name; the fallback uses the caller id only when it
is truthy. -/
def createIdValue (genIdConfig : Option (String → String))
    (data : List (String × JsValue)) (model : String) : JsValue :=
  match genIdConfig with
  | some g => .str (g model)
  | none =>
    let suppl := lookupData data "id"
    if suppl.truthy then suppl else .str generatedIdToken

/-- The body of the transformInput field loop (src/index.ts): an undefined
input value is skipped (letting store defaults apply); any other value is
encoded via withApplyDefault, with the storage name patched into the field
metadata, and stored under the storage name. -/
def transformStep (data : List (String × JsValue)) (model : String) (action : Action)
    (acc : List (String × JsValue)) (p : String × FieldAttribute) :
    List (String × JsValue) :=
  let value := lookupData data p.1
  if value = .undefined then acc
  else
    insertField acc (storageName p.1 p.2)
      (withApplyDefault value { p.2 with fieldName := some (storageName p.1 p.2) }
        action (some model))

/-- src/index.ts transformInput: update actions start from an empty record,
create actions start from a record holding the id slot; then every schema
field whose input value is not undefined is encoded via withApplyDefault
and stored under its storage name.  An unknown model throws. -/
def transformInput (schema : Schema) (genIdConfig : Option (String → String))
    (data : List (String × JsValue)) (model : String) (action : Action) :
    Except String (List (String × JsValue)) :=
  let base : List (String × JsValue) :=
    match action with
    | .update => []
    | .create => [("id", createIdValue genIdConfig data model)]
  match lookupTable schema model with
  | none => .error ("Model " ++ model ++ " not found in schema")
  | some tbl => .ok (tbl.fields.foldl (transformStep data model action) base)

/-- The mutable connection state captured by the adapter closure: the live
handle (db), the isConnecting flag, the pending attempt (connectionPromise,
identified by an attempt id), and a history counter of physical connection
attempts started (for stating single-flight). -/
structure ConnState where
  db : Option Nat
  isConnecting : Bool
  connectionPromise : Option Nat
  attemptsStarted : Nat
deriving DecidableEq

/-- Starting a physical connection attempt: the body after the in-flight
check in ensureConnection sets isConnecting, installs a fresh promise and
begins one connect handshake.  Attempt ids are allocated sequentially. -/
def startAttempt (s : ConnState) : ConnState × Nat :=
  ({ s with isConnecting := true,
            connectionPromise := some s.attemptsStarted,
            attemptsStarted := s.attemptsStarted + 1 },
   s.attemptsStarted)

/-- One caller running the synchronous body of ensureConnection while the
adapter is disconnected (db = null): the JavaScript event loop runs this
section atomically.  If an attempt is in flight (isConnecting &&
connectionPromise) the caller receives the existing pending attempt,
otherwise it starts a new one.  The returned id is the attempt whose
promise the caller awaits. -/
def ensureConnectionStep (s : ConnState) : ConnState × Nat :=
  match s.connectionPromise with
  | some p => if s.isConnecting then (s, p) else startAttempt s
  | none => startAttempt s

/-- The catch handler of the connection attempt: a failure clears the
in-flight state (isConnecting = false, connectionPromise = null) and
rejects the pending promise, so every caller holding that attempt id
receives the failure. -/
def settleFailure (s : ConnState) : ConnState :=
  { s with isConnecting := false, connectionPromise := none }

/-- The then handler of the connection attempt: success installs the live
handle and clears the in-flight state; every waiter resolves to the same
handle. -/
def settleSuccess (s : ConnState) (handle : Nat) : ConnState :=
  { s with db := some handle, isConnecting := false, connectionPromise := none }

/-- A cold adapter: no handle, no attempt in flight, no attempt started. -/
def coldState : ConnState :=
  { db := none, isConnecting := false, connectionPromise := none, attemptsStarted := 0 }

/-- n concurrent callers entering ensureConnection one after the other (the
event loop serializes the synchronous sections); returns the final state
and the attempt id each caller awaits. -/
def runCallers : ConnState → Nat → ConnState × List Nat
  | s, 0 => (s, [])
  | s, n + 1 =>
    let r1 := ensureConnectionStep s
    let r2 := runCallers r1.1 n
    (r2.1, r1.2 :: r2.2)

/-- Modelled from the better-auth library: a representative fragment of the
schema produced by getAuthTables for the core tables (user, session,
account), used to instantiate the theorems on concrete inputs.  The
emailVerified field carries the literal default false and createdAt a
zero-argument generator default, as in the better-auth core schema; the
fields tables never contain the id field, which better-auth keeps
implicit.  This is the user table. -/
def userTable : TableSchema :=
  ⟨[("name", {}),
    ("email", {}),
    ("emailVerified", { defaultValue := some (.lit (.bool false)) }),
    ("image", {}),
    ("createdAt", { defaultValue := some (.gen (.date "2026-01-01T00:00:00.000Z")) }),
    ("updatedAt", { defaultValue := some (.gen (.date "2026-01-01T00:00:00.000Z")) })]⟩

/-- The session table of the modelled core schema. -/
def sessionTable : TableSchema :=
  ⟨[("userId", { references := some "user" }),
    ("token", {}),
    ("expiresAt", {}),
    ("ipAddress", {}),
    ("createdAt", { defaultValue := some (.gen (.date "2026-01-01T00:00:00.000Z")) }),
    ("updatedAt", { defaultValue := some (.gen (.date "2026-01-01T00:00:00.000Z")) })]⟩

/-- The account table of the modelled core schema. -/
def accountTable : TableSchema :=
  ⟨[("userId", { references := some "user" }),
    ("accountId", {}),
    ("providerId", {}),
    ("accessToken", {}),
    ("refreshToken", {})]⟩

/-- The modelled core schema assembled from the three tables. -/
def authSchema : Schema :=
  [("user", userTable), ("session", sessionTable), ("account", accountTable)]

/-- A schema instance as a caller could configure it, with a custom storage
name on one field; used to exercise the storage-name path of getField. -/
def customSchema : Schema :=
  [("user",
    ⟨[("name", {}),
      ("email", { fieldName := some "email_address" })]⟩)]

/-- A concrete filter list whose second condition carries the OR connector,
used to test the connector handling of the predicate compilers. -/
def orClauses : List WhereClause :=
  [{ field := "email", value := .str "a@b.com", operator := some .eq },
   { field := "name", value := .str "X", operator := some .eq, connector := some .OR }]

/-- The emailVerified field metadata of the core schema: a literal default
of false (a falsy default value). -/
def emailVerifiedAttr : FieldAttribute :=
  { fieldName := some "emailVerified", defaultValue := some (.lit (.bool false)) }

/-- The createdAt field metadata of the core schema: a zero-argument
generator default producing the current date. -/
def createdAtAttr : FieldAttribute :=
  { fieldName := some "createdAt",
    defaultValue := some (.gen (.date "2026-01-01T00:00:00.000Z")) }

/-- Modelled from the spec words, for comparison with the source
definition: a field name is identifier-bearing iff it ends in the Id
suffix, is not in the configured exclusion set, and does not hit the
model-specific exception of accountId on the account entity. -/
def specIdentifierBearing (n : String) (m : Option String) : Bool :=
  strEndsWith n "Id"
    && !(n == "providerId" || n == "activeOrganizationId")
    && !(n == "accountId" && (m == some "account"))

/-!  Theorems.  -/

/-- C1 counterexample: the legacy count executor raises (it throws
SurrealDBQueryError) when the aggregate query returns no row, which is
exactly the absent-aggregate-row case the claim says is answered with 0. -/
theorem count_legacy_errors_on_absent_row :
    countResultLegacy [] = Except.error "Failed to count records" := rfl

/-- C1 (amended): the factory count executor treats an absent aggregate row
as a count of zero and never raises; the legacy count executor returns the
numeric count whenever the aggregate row is present (and raises exactly
when it is absent). -/
theorem count_absent_row_amended :
    countResultFactory [] = 0 ∧
    (∀ (r : CountRow) (rows : List CountRow), countResultFactory (r :: rows) = r.count) ∧
    (∀ (r : CountRow) (rows : List CountRow),
      countResultLegacy (r :: rows) = Except.ok r.count) :=
  ⟨rfl, fun _ _ => rfl, fun _ _ => rfl⟩

/-- C2 counterexample: the legacy findMany given a present-but-empty filter
list emits the WHERE keyword followed by the empty predicate instead of
omitting the clause. -/
theorem find_many_legacy_empty_where_dangling :
    findManyQueryLegacy authSchema "user" (some []) none none none
      = "SELECT * FROM user WHERE " := rfl

/-- C2 (amended): both predicate compilers map an empty filter list to the
empty predicate, and the factory findMany, the factory count and the legacy
count omit the WHERE clause for an empty or absent filter list; the legacy
findMany, however, appends the WHERE keyword whenever a filter list is
present, even an empty one (see the counterexample). -/
theorem empty_filter_omits_where (schema : Schema) (model : String)
    (sb : Option SortBy) (l o : Option Nat) :
    convertWhereClause schema [] model = "" ∧
    buildWhereClause [] = "" ∧
    findManyQueryFactory model (some []) sb l o = findManyQueryFactory model none sb l o ∧
    countQueryFactory model (some []) = countQueryFactory model none ∧
    countQueryLegacy schema model (some []) = countQueryLegacy schema model none :=
  ⟨rfl, rfl, rfl, rfl, rfl⟩

/-- C5: a condition whose value is null or undefined compiles, in both
predicate compilers, to the native is-unset test on the resolved field,
whatever operator and connector the condition carries, and this is a
returned fragment, not an error. -/
theorem null_value_compiles_to_unset (schema : Schema) (model f : String)
    (op : Option Operator) (conn : Option Connector) :
    convertClause schema model { field := f, value := .null, operator := op, connector := conn }
        = getField schema model f ++ " = NONE" ∧
    convertClause schema model
        { field := f, value := .undefined, operator := op, connector := conn }
        = getField schema model f ++ " = NONE" ∧
    buildClause { field := f, value := .null, operator := op, connector := conn }
        = f ++ " = NONE" ∧
    buildClause { field := f, value := .undefined, operator := op, connector := conn }
        = f ++ " = NONE" :=
  ⟨rfl, rfl, rfl, rfl⟩

/-- C8: encode is idempotent on identifier values.  The factory value
transform is idempotent outright (a wrapped record id is no longer a
string, so a second pass leaves it untouched), and the shared encode
withApplyDefault maps a value that is already a native identifier to itself
under every action, field and model: the record-id constructor unwraps an
existing identifier, so no double-wrapping can occur. -/
theorem encode_idempotent_on_identifiers :
    (∀ (f : String) (v : JsValue),
      transformValueForDB f (transformValueForDB f v) = transformValueForDB f v) ∧
    (∀ (s : String) (fld : FieldAttribute) (act : Action) (m : Option String),
      withApplyDefault (.recordId s) fld act m = .recordId s) := by
  constructor
  · intro f v
    have hfix : ∀ r, transformValueForDB f (.recordId r) = .recordId r := fun _ => rfl
    cases v with
    | str s =>
      by_cases hg : (strEndsWith f "Id" && !strStartsWith f "provider"
          && !strStartsWith f "account") = true
      · by_cases hc : (!strContainsChar s ':') = true
        · have h1 : transformValueForDB f (.str s)
              = .recordId (f.dropRight 2 ++ ":" ++ s) := by
            simp [transformValueForDB, JsValue.isNullish, hg, hc]
          rw [h1, hfix]
        · have h1 : transformValueForDB f (.str s) = .recordId s := by
            simp [transformValueForDB, JsValue.isNullish, hg, hc]
          rw [h1, hfix]
      · have h1 : transformValueForDB f (.str s) = .str s := by
          simp [transformValueForDB, JsValue.isNullish, hg]
        rw [h1, h1]
    | undefined => rfl
    | null => rfl
    | bool b => rfl
    | num n => rfl
    | date iso => rfl
    | recordId r => rfl
    | thrown msg => rfl
  · intro s fld act m
    cases act
    · by_cases hr : fld.references.isSome
      · simp [withApplyDefault, JsValue.isNullish, hr, mkStringRecordId]
      · by_cases hsc : shouldConvertToRecordId fld.fieldName m
        · simp [withApplyDefault, JsValue.isNullish, hr, hsc, mkStringRecordId]
        · simp [withApplyDefault, JsValue.isNullish, hr, hsc]
    · rfl

/-- A condition with its connector overwritten compiles to the same legacy
fragment: convertClause never reads the connector. -/
theorem convertClause_connector_irrelevant (schema : Schema) (model : String)
    (c : WhereClause) (x : Option Connector) :
    convertClause schema model { c with connector := x } = convertClause schema model c := by
  cases c
  rfl

/-- C6 (amended): both predicate compilers join adjacent compiled fragments
with the AND token unconditionally; the per-condition connector is ignored,
so a filter list compiles identically however its connectors are set, and
the OR connector is never honoured (see the counterexample). -/
theorem fragments_joined_with_and (schema : Schema) (model : String)
    (c1 c2 : WhereClause) (w : List WhereClause) (g : WhereClause → Option Connector) :
    convertWhereClause schema [c1, c2] model
        = convertClause schema model c1 ++ " AND " ++ convertClause schema model c2 ∧
    buildWhereClause [c1, c2] = buildClause c1 ++ " AND " ++ buildClause c2 ∧
    convertWhereClause schema (w.map (fun c => { c with connector := g c })) model
        = convertWhereClause schema w model := by
  refine ⟨rfl, rfl, ?_⟩
  unfold convertWhereClause
  congr 1
  rw [List.map_map]
  exact List.map_congr_left (fun c _ => convertClause_connector_irrelevant schema model c (g c))

/-- C6 counterexample: a two-condition filter whose second condition
carries the OR connector compiles, in the legacy compiler, to the two
fragments joined by the AND token, and the OR token occurs nowhere in the
output. -/
theorem or_connector_not_emitted :
    convertWhereClause authSchema orClauses "user"
      = "email = " ++ singleQuote ++ "a@b.com" ++ singleQuote ++ " AND name = "
        ++ singleQuote ++ "X" ++ singleQuote ∧
    ¬ (" OR ".toList <:+: (convertWhereClause authSchema orClauses "user").toList) :=
  ⟨rfl, by decide⟩

/-- C3 counterexample: the user entity name widget is absent from the
schema, yet resolving one of its fields returns the input name unchanged
instead of raising: getField silently falls back, it never raises a
configuration error. -/
theorem get_field_unknown_model_silent_fallback :
    lookupTable authSchema "widget" = none ∧
    getField authSchema "widget" "email" = "email" :=
  ⟨rfl, rfl⟩

/-- C3 (amended): getField returns the literal identifier field id
unchanged; for a known entity and field it returns the declared non-empty
storage name; for an entity absent from the schema it silently falls back
to the input field name instead of raising a configuration error. -/
theorem get_field_resolution (schema : Schema) (model f m2 g : String)
    (attr : FieldAttribute) (n : String)
    (hf : f ≠ "id") (hl : lookupField schema model f = some attr)
    (hn : attr.fieldName = some n) (hne : n ≠ "")
    (hm2 : lookupTable schema m2 = none) :
    getField schema model "id" = "id" ∧
    getField schema model f = n ∧
    getField schema m2 g = g := by
  refine ⟨rfl, ?_, ?_⟩
  · simp only [getField, hf, if_false, hl, storageName, hn]
    simp [hne]
  · by_cases hg : g = "id"
    · simp [getField, hg]
    · simp [getField, hg, lookupField, hm2]

/-- C3 witness. -/
theorem get_field_resolution_witness :
    getField customSchema "user" "id" = "id" ∧
    getField customSchema "user" "email" = "email_address" ∧
    getField customSchema "widget" "name" = "name" :=
  get_field_resolution customSchema "user" "email" "widget" "name"
    { fieldName := some "email_address" } "email_address"
    (by decide) rfl rfl (by decide) rfl

/-- C4 counterexample: the emailVerified field has a default (the literal
false), yet encoding a null value under a create action passes the null
through instead of materializing the default: the source guards the
defaulting branch with a JavaScript truthiness test on the default value,
so a falsy default is never materialized. -/
theorem default_false_not_materialized :
    emailVerifiedAttr.defaultValue = some (.lit (.bool false)) ∧
    withApplyDefault .null emailVerifiedAttr .create (some "user") = .null ∧
    JsValue.null ≠ .bool false :=
  ⟨rfl, rfl, by decide⟩

/-- C4 (amended): encode evaluates its rules in order with first match
winning: under an update action every value passes through unchanged, and
under a create action a null or undefined value whose field carries a
truthy default materializes it, invoking a zero-argument generator and
using a literal as-is; a falsy default is skipped (see the
counterexample). -/
theorem encode_default_rules (v vn : JsValue) (fld fld2 : FieldAttribute)
    (m m2 : Option String) (d : DefaultValue) (g l : JsValue)
    (hd : fld.defaultValue = some d) (ht : d.truthy = true)
    (hn : vn.isNullish = true) :
    withApplyDefault v fld2 .update m2 = v ∧
    withApplyDefault vn fld .create m = d.materialize ∧
    DefaultValue.materialize (.gen g) = g ∧
    DefaultValue.materialize (.lit l) = l := by
  refine ⟨rfl, ?_, rfl, rfl⟩
  simp [withApplyDefault, hn, hd, ht]

/-- C4 witness. -/
theorem encode_default_rules_witness :
    withApplyDefault (.str "X") {} .update none = .str "X" ∧
    withApplyDefault .null createdAtAttr .create (some "user")
        = (DefaultValue.gen (.date "2026-01-01T00:00:00.000Z")).materialize ∧
    DefaultValue.materialize (.gen (.bool true)) = .bool true ∧
    DefaultValue.materialize (.lit (.num 7)) = .num 7 :=
  encode_default_rules (.str "X") .null createdAtAttr {} (some "user") none
    (.gen (.date "2026-01-01T00:00:00.000Z")) (.bool true) (.num 7)
    rfl rfl rfl

/-- The source name-convention test agrees with the spec description of the
identifier-bearing heuristic on every field name and model. -/
theorem shouldConvert_eq_spec (n : String) (m : Option String) :
    shouldConvertToRecordId (some n) m = specIdentifierBearing n m := by
  unfold shouldConvertToRecordId specIdentifierBearing
  by_cases hs : strEndsWith n "Id"
  · simp only [hs, Bool.not_true, Bool.false_eq_true, if_false, Bool.true_and]
    by_cases h1 : n = "providerId" ∨ n = "activeOrganizationId"
    · rcases h1 with h | h <;> subst h <;> simp
    · rw [if_neg h1]
      rw [not_or] at h1
      have e1 : (n == "providerId") = false := beq_eq_false_iff_ne.mpr h1.1
      have e2 : (n == "activeOrganizationId") = false := beq_eq_false_iff_ne.mpr h1.2
      rw [e1, e2]
      by_cases h2 : n = "accountId" ∧ m = some "account"
      · obtain ⟨ha, hb⟩ := h2
        subst ha
        rw [hb]
        simp
      · rw [if_neg h2]
        by_cases ha : n = "accountId"
        · have hb : (m == some "account") = false :=
            beq_eq_false_iff_ne.mpr (fun hmm => h2 ⟨ha, hmm⟩)
          rw [hb]
          simp
        · have e4 : (n == "accountId") = false := beq_eq_false_iff_ne.mpr ha
          rw [e4]
          simp
  · have hs' : strEndsWith n "Id" = false := by
      cases hval : strEndsWith n "Id"
      · rfl
      · exact absurd hval hs
    simp [hs']

/-- C7: a field whose name carries the Id suffix is treated by encode as
identifier-bearing exactly per the exclusion set and the model-specific
exception (the source test coincides with the spec description); when the
test passes, a string value is wrapped into a native typed identifier, and
the accountId field on the account entity itself is never identifier
converted: its encoded value is never a native identifier. -/
theorem id_suffix_identifier_conversion (n s s2 : String) (m : Option String)
    (fld fldAcc : FieldAttribute)
    (hn : fld.fieldName = some n) (hr : fld.references = none)
    (hsc : shouldConvertToRecordId (some n) m = true)
    (hna : fldAcc.fieldName = some "accountId") (hra : fldAcc.references = none) :
    shouldConvertToRecordId (some n) m = specIdentifierBearing n m ∧
    withApplyDefault (.str s) fld .create m = .recordId s ∧
    (withApplyDefault (.str s2) fldAcc .create (some "account")).isRid = false ∧
    shouldConvertToRecordId (some "accountId") (some "account") = false := by
  refine ⟨shouldConvert_eq_spec n m, ?_, ?_, by decide⟩
  · have hrs : fld.references.isSome = false := by rw [hr]; rfl
    simp [withApplyDefault, JsValue.isNullish, hrs, hn, hsc, mkStringRecordId]
  · have hrs : fldAcc.references.isSome = false := by rw [hra]; rfl
    have hscf : shouldConvertToRecordId fldAcc.fieldName (some "account") = false := by
      rw [hna]; decide
    simp only [withApplyDefault, JsValue.isNullish, hrs, Bool.false_eq_true, if_false, hscf]
    by_cases hdt : isDateString s2
    · simp [hdt, JsValue.isRid]
    · simp [hdt, JsValue.isRid]

/-- C7 witness. -/
theorem id_suffix_identifier_conversion_witness :
    shouldConvertToRecordId (some "userId") (some "session")
        = specIdentifierBearing "userId" (some "session") ∧
    withApplyDefault (.str "abc123") { fieldName := some "userId" } .create (some "session")
        = .recordId "abc123" ∧
    (withApplyDefault (.str "microsoft-12345") { fieldName := some "accountId" }
        .create (some "account")).isRid = false ∧
    shouldConvertToRecordId (some "accountId") (some "account") = false :=
  id_suffix_identifier_conversion "userId" "abc123" "microsoft-12345" (some "session")
    { fieldName := some "userId" } { fieldName := some "accountId" }
    rfl rfl (by decide) rfl rfl

/-- While an attempt is in flight, every further caller receives the same
pending attempt and the state is unchanged: no second physical attempt is
started. -/
theorem runCallers_inflight (k : Nat) (s : ConnState) (p : Nat)
    (h1 : s.connectionPromise = some p) (h2 : s.isConnecting = true) :
    runCallers s k = (s, List.replicate k p) := by
  induction k with
  | zero => rfl
  | succ m ih =>
    have hstep : ensureConnectionStep s = (s, p) := by
      simp [ensureConnectionStep, h1, h2]
    simp [runCallers, hstep, ih, List.replicate_succ]

/-- C9: any number n of concurrent callers entering ensureConnection on a
cold (disconnected) adapter start exactly one physical connection attempt
(the attempt counter ends at 1) and all n callers await the same pending
attempt 0; after that attempt fails and its waiters are rejected
(settleFailure clears the in-flight state, so every holder of attempt 0
receives the failure), a subsequent caller starts a brand-new attempt 1 and
the counter moves to 2: failures are not cached. -/
theorem single_flight_connection (n : Nat) (hn : 1 ≤ n) :
    (runCallers coldState n).1
        = { db := none, isConnecting := true, connectionPromise := some 0,
            attemptsStarted := 1 } ∧
    (runCallers coldState n).2 = List.replicate n 0 ∧
    ensureConnectionStep (settleFailure (runCallers coldState n).1)
        = ({ db := none, isConnecting := true, connectionPromise := some 1,
             attemptsStarted := 2 }, 1) := by
  obtain ⟨m, rfl⟩ : ∃ m, n = m + 1 := ⟨n - 1, by omega⟩
  have hfirst : ensureConnectionStep coldState
      = ({ db := none, isConnecting := true, connectionPromise := some 0,
           attemptsStarted := 1 }, 0) := rfl
  have hrest := runCallers_inflight m
    { db := none, isConnecting := true, connectionPromise := some 0, attemptsStarted := 1 }
    0 rfl rfl
  refine ⟨?_, ?_, ?_⟩
  · simp [runCallers, hfirst, hrest]
  · simp [runCallers, hfirst, hrest, List.replicate_succ]
  · simp [runCallers, hfirst, hrest]
    rfl

/-- C9 witness: ten concurrent operations against a cold adapter. -/
theorem single_flight_connection_witness :
    (runCallers coldState 10).1
        = { db := none, isConnecting := true, connectionPromise := some 0,
            attemptsStarted := 1 } ∧
    (runCallers coldState 10).2 = List.replicate 10 0 ∧
    ensureConnectionStep (settleFailure (runCallers coldState 10).1)
        = ({ db := none, isConnecting := true, connectionPromise := some 1,
             attemptsStarted := 2 }, 1) :=
  single_flight_connection 10 (by decide)

/-- Replacing the entries of one key leaves lookups of a different key
untouched. -/
theorem find_map_replace (l : List (String × JsValue)) (k j : String) (v : JsValue)
    (h : k ≠ j) :
    (l.map (fun p => if p.1 == k then (k, v) else p)).find? (fun p => p.1 == j)
      = l.find? (fun p => p.1 == j) := by
  induction l with
  | nil => rfl
  | cons p t ih =>
    simp only [List.map_cons]
    by_cases hpk : (p.1 == k) = true
    · have hp : p.1 = k := beq_iff_eq.mp hpk
      have hkj : (k == j) = false := beq_eq_false_iff_ne.mpr h
      have hpj : (p.1 == j) = false := by rw [hp]; exact hkj
      rw [if_pos hpk]
      simp only [List.find?_cons, hkj, hpj]
      exact ih
    · rw [if_neg hpk]
      by_cases hpj : (p.1 == j) = true
      · simp only [List.find?_cons, hpj]
      · have hpj' : (p.1 == j) = false := by
          cases hval : (p.1 == j)
          · rfl
          · exact absurd hval hpj
        simp only [List.find?_cons, hpj']
        exact ih

/-- Appending an entry of a different key leaves lookups untouched. -/
theorem find_append_one (l : List (String × JsValue)) (k j : String) (v : JsValue)
    (h : (k == j) = false) :
    (l ++ [(k, v)]).find? (fun p => p.1 == j) = l.find? (fun p => p.1 == j) := by
  induction l with
  | nil =>
    show List.find? (fun p => p.1 == j) [(k, v)] = List.find? (fun p => p.1 == j) []
    simp only [List.find?_cons, h]
  | cons p t ih =>
    simp only [List.cons_append]
    by_cases hpj : (p.1 == j) = true
    · simp only [List.find?_cons, hpj]
    · have hpj' : (p.1 == j) = false := by
        cases hval : (p.1 == j)
        · rfl
        · exact absurd hval hpj
      simp only [List.find?_cons, hpj']
      exact ih

/-- A property write under one key leaves reads of a different key
untouched. -/
theorem lookupData_insertField_ne (acc : List (String × JsValue)) (k j : String)
    (v : JsValue) (h : k ≠ j) :
    lookupData (insertField acc k v) j = lookupData acc j := by
  by_cases hany : (acc.any (fun p => p.1 == k)) = true
  · have he : insertField acc k v = acc.map (fun p => if p.1 == k then (k, v) else p) := by
      unfold insertField; rw [if_pos hany]
    rw [he]
    unfold lookupData
    rw [find_map_replace acc k j v h]
  · have he : insertField acc k v = acc ++ [(k, v)] := by
      unfold insertField; rw [if_neg hany]
    rw [he]
    unfold lookupData
    rw [find_append_one acc k j v (beq_eq_false_iff_ne.mpr h)]

/-- A property write under one key preserves the absence of a different
key. -/
theorem insertField_all_ne (acc : List (String × JsValue)) (k j : String) (v : JsValue)
    (hk : (k == j) = false) (hacc : acc.all (fun p => p.1 != j) = true) :
    (insertField acc k v).all (fun p => p.1 != j) = true := by
  by_cases hany : (acc.any (fun p => p.1 == k)) = true
  · have he : insertField acc k v = acc.map (fun p => if p.1 == k then (k, v) else p) := by
      unfold insertField; rw [if_pos hany]
    rw [he, List.all_map]
    rw [List.all_eq_true] at hacc ⊢
    intro p hp
    by_cases hpk : (p.1 == k) = true
    · simp only [Function.comp_apply, if_pos hpk]
      simp [bne, hk]
    · simp only [Function.comp_apply, if_neg hpk]
      exact hacc p hp
  · have he : insertField acc k v = acc ++ [(k, v)] := by
      unfold insertField; rw [if_neg hany]
    rw [he, List.all_append, hacc]
    simp [bne, hk]

/-- Folding a step that preserves a property preserves it over the whole
field list. -/
theorem foldl_keeps {α : Type} (P : List (String × JsValue) → Prop)
    (f : List (String × JsValue) → α → List (String × JsValue)) :
    ∀ (l : List α) (acc : List (String × JsValue)), P acc →
      (∀ acc2 a, a ∈ l → P acc2 → P (f acc2 a)) → P (l.foldl f acc)
  | [], _, hacc, _ => hacc
  | a :: t, acc, hacc, hstep =>
    foldl_keeps P f t (f acc a) (hstep acc a (List.mem_cons_self a t) hacc)
      (fun acc2 b hb hP => hstep acc2 b (List.mem_cons_of_mem a hb) hP)

/-- C10 counterexample: a create with a caller-supplied empty-string id
(and no configured generator) does not keep the caller id: the source
computes data.id || generateId(), so the falsy supplied id is replaced by a
freshly generated identifier. -/
theorem create_replaces_falsy_caller_id :
    transformInput authSchema none
        [("id", JsValue.str ""), ("email", JsValue.str "a@b.com")] "user" .create
      = .ok [("id", JsValue.str "generated-id"), ("email", JsValue.str "a@b.com")] ∧
    JsValue.str "generated-id" ≠ JsValue.str "" :=
  ⟨rfl, by decide⟩

/-- C10 (amended): for a model present in the schema whose field list never
maps a storage name to id (true of every better-auth schema, which keeps id
implicit), the payload transformed for an update never contains an id field
(so an update cannot change a record identifier), and the record
transformed for a create always carries an id field holding the configured
generator result when one is configured, otherwise the caller-supplied id
when it is truthy, otherwise a freshly generated identifier (the falsy
caller id case is forced by the counterexample). -/
theorem transform_input_id_handling (schema : Schema)
    (genIdConfig : Option (String → String))
    (dataU dataC : List (String × JsValue)) (model : String) (tbl : TableSchema)
    (outU outC : List (String × JsValue))
    (htbl : lookupTable schema model = some tbl)
    (hid : ∀ p ∈ tbl.fields, (storageName p.1 p.2 == "id") = false)
    (hU : transformInput schema genIdConfig dataU model .update = .ok outU)
    (hC : transformInput schema genIdConfig dataC model .create = .ok outC) :
    outU.all (fun p => p.1 != "id") = true ∧
    lookupData outC "id" = createIdValue genIdConfig dataC model := by
  simp only [transformInput, htbl, Except.ok.injEq] at hU hC
  constructor
  · rw [← hU]
    refine foldl_keeps (fun acc => acc.all (fun p => p.1 != "id") = true)
      (transformStep dataU model .update) tbl.fields [] rfl ?_
    intro acc2 a ha hP
    unfold transformStep
    by_cases hv : lookupData dataU a.1 = .undefined
    · simpa [hv] using hP
    · simp only [hv, if_false]
      exact insertField_all_ne acc2 _ "id" _ (hid a ha) hP
  · rw [← hC]
    refine foldl_keeps
      (fun acc => lookupData acc "id" = createIdValue genIdConfig dataC model)
      (transformStep dataC model .create) tbl.fields _ (by simp [lookupData, List.find?]) ?_
    intro acc2 a ha hP
    unfold transformStep
    by_cases hv : lookupData dataC a.1 = .undefined
    · simpa [hv] using hP
    · simp only [hv, if_false]
      rw [lookupData_insertField_ne acc2 _ "id" _ (beq_eq_false_iff_ne.mp (hid a ha))]
      exact hP

/-- C10 witness. -/
theorem transform_input_id_handling_witness :
    ([("name", JsValue.str "X")].all (fun p => p.1 != "id")) = true ∧
    lookupData [("id", JsValue.str "generated-id"), ("email", JsValue.str "a@b.com")] "id"
      = createIdValue none [("email", JsValue.str "a@b.com")] "user" :=
  transform_input_id_handling authSchema none
    [("name", JsValue.str "X")] [("email", JsValue.str "a@b.com")] "user" userTable
    [("name", JsValue.str "X")]
    [("id", JsValue.str "generated-id"), ("email", JsValue.str "a@b.com")]
    rfl (by decide) rfl rfl

end SurrealAdapter
